import Mathlib

/-!
Verification development for the UTXO transaction codec of the goshimmer
ledgerstate package (packages/ledgerstate/transaction.go) and the marker
engine's object-storage configuration.

Bytes are modelled as natural numbers (every Go byte is a value below 256;
serializers reduce modulo 256 where Go truncates).  A Go MarshalUtil is
modelled as the pair of the underlying byte list and the current read
offset: every FromMarshalUtil function becomes a pure function
List Nat -> Nat -> Except ParseErr (result, new offset), mirroring the
mutable read offset by explicit state passing.  Multi-byte integers are
little-endian, following the hive.go marshalutil library used by the source.
-/

/-- Parse error taxonomy of the spec: truncated input, payload-type
mismatch, declared-length mismatch, unlock-block/input arity mismatch and
invalid essence version. -/
inductive ParseErr where
  | truncatedInput
  | typeMismatch
  | lengthMismatch
  | arityMismatch
  | invalidVersion
deriving DecidableEq, Repr

/-- MarshalUtil.ReadBytes: yields the next n bytes and advances the offset,
failing when fewer than n bytes remain. -/
def readBytes (bs : List Nat) (off n : Nat) : Except ParseErr (List Nat × Nat) :=
  if off + n ≤ bs.length then .ok ((bs.drop off).take n, off + n) else .error .truncatedInput

/-- MarshalUtil.ReadByte: yields the next byte, failing at end of input. -/
def readByte (bs : List Nat) (off : Nat) : Except ParseErr (Nat × Nat) :=
  if off < bs.length then .ok (bs.getD off 0, off + 1) else .error .truncatedInput

/-- Value of a little-endian byte list (first byte least significant). -/
def leUint (l : List Nat) : Nat :=
  l.foldr (fun b acc => b + 256 * acc) 0

/-- MarshalUtil.ReadUint16 (little-endian). -/
def readUint16LE (bs : List Nat) (off : Nat) : Except ParseErr (Nat × Nat) :=
  match readBytes bs off 2 with
  | .error e => .error e
  | .ok (c, off1) => .ok (leUint c, off1)

/-- MarshalUtil.ReadUint32 (little-endian). -/
def readUint32LE (bs : List Nat) (off : Nat) : Except ParseErr (Nat × Nat) :=
  match readBytes bs off 4 with
  | .error e => .error e
  | .ok (c, off1) => .ok (leUint c, off1)

/-- MarshalUtil.ReadUint64 (little-endian). -/
def readUint64LE (bs : List Nat) (off : Nat) : Except ParseErr (Nat × Nat) :=
  match readBytes bs off 8 with
  | .error e => .error e
  | .ok (c, off1) => .ok (leUint c, off1)

/-- MarshalUtil.WriteUint16: two little-endian bytes (Go truncates the
value to uint16 first; the modulus performs the same truncation). -/
def writeUint16LE (n : Nat) : List Nat :=
  [n % 256, n / 256 % 256]

/-- MarshalUtil.WriteUint32: four little-endian bytes. -/
def writeUint32LE (n : Nat) : List Nat :=
  [n % 256, n / 256 % 256, n / 65536 % 256, n / 16777216 % 256]

/-- MarshalUtil.WriteUint64: eight little-endian bytes. -/
def writeUint64LE (n : Nat) : List Nat :=
  [n % 256, n / 256 % 256, n / 65536 % 256, n / 16777216 % 256,
   n / 4294967296 % 256, n / 1099511627776 % 256,
   n / 281474976710656 % 256, n / 72057594037927936 % 256]

/-- Modelled from the spec: the wire format uses varint counts
(LEB128, low 7 bits first); this writes one. -/
def writeVarint (n : Nat) : List Nat :=
  if h : n < 128 then [n] else (n % 128 + 128) :: writeVarint (n / 128)
termination_by n
decreasing_by exact Nat.div_lt_self (by omega) (by omega)

/-- Modelled from the spec: varint reader over a byte-list suffix,
returning the value and the number of bytes consumed. -/
def readVarintAux : List Nat → Except ParseErr (Nat × Nat)
  | [] => .error .truncatedInput
  | b :: rest =>
    if b < 128 then .ok (b, 1)
    else
      match readVarintAux rest with
      | .error e => .error e
      | .ok (v, k) => .ok (b % 128 + 128 * v, k + 1)

/-- Modelled from the spec: varint reader in MarshalUtil style. -/
def readVarint (bs : List Nat) (off : Nat) : Except ParseErr (Nat × Nat) :=
  match readVarintAux (bs.drop off) with
  | .error e => .error e
  | .ok (v, k) => .ok (v, off + k)

/-- Runs a parser a fixed number of times, collecting the results
(the count-prefixed list pattern of the wire format). -/
def parseCount {α : Type} (p : List Nat → Nat → Except ParseErr (α × Nat)) :
    Nat → List Nat → Nat → Except ParseErr (List α × Nat)
  | 0, _, off => .ok ([], off)
  | n + 1, bs, off =>
    match p bs off with
    | .error e => .error e
    | .ok (a, off1) =>
      match parseCount p n bs off1 with
      | .error e => .error e
      | .ok (as, off2) => .ok (a :: as, off2)

/-- TransactionIDLength from the source: a TransactionID is 32 bytes. -/
def TransactionIDLength : Nat := 32

/-- Modelled from the spec: addresses have no width given beyond the
32-byte identifier convention; modelled as 32 bytes (no claim depends on
the exact width). -/
def AddressLength : Nat := 32

/-- Modelled from the spec: an Input wraps an Output Reference, the pair
of the owning address and the producing-transaction identifier. -/
structure OutputReference where
  address : List Nat
  transactionID : List Nat
deriving DecidableEq, Repr

/-- Modelled from the spec: serialization of one input (address bytes
followed by the producing-transaction identifier bytes). -/
def inputBytes (i : OutputReference) : List Nat :=
  i.address ++ i.transactionID

/-- Modelled from the spec: parses one input. -/
def inputFromMarshalUtil (bs : List Nat) (off : Nat) :
    Except ParseErr (OutputReference × Nat) :=
  match readBytes bs off AddressLength with
  | .error e => .error e
  | .ok (addr, off1) =>
    match readBytes bs off1 TransactionIDLength with
    | .error e => .error e
    | .ok (tid, off2) => .ok (⟨addr, tid⟩, off2)

/-- Modelled from the spec: the input list is serialized as a varint count
followed by the inputs in order. -/
def inputsBytes (ins : List OutputReference) : List Nat :=
  writeVarint ins.length ++ (ins.map inputBytes).flatten

/-- Modelled from the spec: parses the input list. -/
def inputsFromMarshalUtil (bs : List Nat) (off : Nat) :
    Except ParseErr (List OutputReference × Nat) :=
  match readVarint bs off with
  | .error e => .error e
  | .ok (n, off1) => parseCount inputFromMarshalUtil n bs off1

/-- Modelled from the spec: a colored balance is a color tag and an
amount; the color is modelled as 32 bytes, the amount as a uint64. -/
structure ColoredBalance where
  color : List Nat
  amount : Nat
deriving DecidableEq, Repr

/-- Modelled from the spec: serialization of one colored balance. -/
def coloredBalanceBytes (b : ColoredBalance) : List Nat :=
  b.color ++ writeUint64LE b.amount

/-- Modelled from the spec: parses one colored balance. -/
def coloredBalanceFromMarshalUtil (bs : List Nat) (off : Nat) :
    Except ParseErr (ColoredBalance × Nat) :=
  match readBytes bs off 32 with
  | .error e => .error e
  | .ok (color, off1) =>
    match readUint64LE bs off1 with
    | .error e => .error e
    | .ok (amount, off2) => .ok (⟨color, amount⟩, off2)

/-- Modelled from the spec: an Output is a destination address with a
list of colored balances. -/
structure Output where
  address : List Nat
  balances : List ColoredBalance
deriving DecidableEq, Repr

/-- Modelled from the spec: serialization of one output. -/
def outputBytes (o : Output) : List Nat :=
  o.address ++ writeVarint o.balances.length ++ (o.balances.map coloredBalanceBytes).flatten

/-- Modelled from the spec: parses one output. -/
def outputFromMarshalUtil (bs : List Nat) (off : Nat) :
    Except ParseErr (Output × Nat) :=
  match readBytes bs off AddressLength with
  | .error e => .error e
  | .ok (addr, off1) =>
    match readVarint bs off1 with
    | .error e => .error e
    | .ok (n, off2) =>
      match parseCount coloredBalanceFromMarshalUtil n bs off2 with
      | .error e => .error e
      | .ok (balances, off3) => .ok (⟨addr, balances⟩, off3)

/-- Modelled from the spec: the output list is serialized as a varint
count followed by the outputs in order. -/
def outputsBytes (outs : List Output) : List Nat :=
  writeVarint outs.length ++ (outs.map outputBytes).flatten

/-- Modelled from the spec: parses the output list. -/
def outputsFromMarshalUtil (bs : List Nat) (off : Nat) :
    Except ParseErr (List Output × Nat) :=
  match readVarint bs off with
  | .error e => .error e
  | .ok (n, off1) => parseCount outputFromMarshalUtil n bs off1

/-- Modelled from the spec: an unlock block is either a signature block
(signature over the essence; ed25519 signatures are 64 bytes) or a
reference block carrying the index of an earlier unlock block. -/
inductive UnlockBlock where
  | signature (sig : List Nat)
  | reference (index : Nat)
deriving DecidableEq, Repr

/-- Modelled from the spec: serialization of one unlock block, a type
byte (0 signature, 1 reference) followed by the body. -/
def unlockBlockBytes : UnlockBlock → List Nat
  | .signature sig => 0 :: sig
  | .reference index => 1 :: writeUint16LE index

/-- Modelled from the spec: parses one unlock block. -/
def unlockBlockFromMarshalUtil (bs : List Nat) (off : Nat) :
    Except ParseErr (UnlockBlock × Nat) :=
  match readByte bs off with
  | .error e => .error e
  | .ok (b, off1) =>
    if b = 0 then
      match readBytes bs off1 64 with
      | .error e => .error e
      | .ok (sig, off2) => .ok (.signature sig, off2)
    else if b = 1 then
      match readUint16LE bs off1 with
      | .error e => .error e
      | .ok (index, off2) => .ok (.reference index, off2)
    else .error .typeMismatch

/-- Modelled from the spec: the unlock-block list is serialized as a
varint count followed by the blocks in order.  The source checks the
parsed list's arity against the essence independently (transaction.go
line 174), so the list carries its own count on the wire. -/
def unlockBlocksBytes (ubs : List UnlockBlock) : List Nat :=
  writeVarint ubs.length ++ (ubs.map unlockBlockBytes).flatten

/-- Modelled from the spec: parses the unlock-block list. -/
def unlockBlocksFromMarshalUtil (bs : List Nat) (off : Nat) :
    Except ParseErr (List UnlockBlock × Nat) :=
  match readVarint bs off with
  | .error e => .error e
  | .ok (n, off1) => parseCount unlockBlockFromMarshalUtil n bs off1

/-- TransactionEssence from the source: version, ordered inputs, ordered
outputs and an optional nested payload (modelled as an opaque
length-prefixed blob, per the spec's self-describing typed blob). -/
structure TransactionEssence where
  version : Nat
  inputs : List OutputReference
  outputs : List Output
  payload : Option (List Nat)
deriving DecidableEq, Repr

/-- NewTransactionEssence from the source (transaction.go lines 233-239):
it stores the given version, inputs and outputs with no validation and a
nil payload. -/
def newTransactionEssence (version : Nat) (inputs : List OutputReference)
    (outputs : List Output) : TransactionEssence :=
  ⟨version, inputs, outputs, none⟩

/-- TransactionEssenceVersionFromMarshalUtil from the source
(transaction.go lines 331-344): reads one byte, failing on a missing byte
and on any byte other than 0. -/
def transactionEssenceVersionFromMarshalUtil (bs : List Nat) (off : Nat) :
    Except ParseErr (Nat × Nat) :=
  match readByte bs off with
  | .error _ => .error .truncatedInput
  | .ok (b, off1) => if b ≠ 0 then .error .invalidVersion else .ok (b, off1)

/-- TransactionEssenceVersion.Bytes from the source: the single version
byte. -/
def transactionEssenceVersionBytes (v : Nat) : List Nat :=
  [v % 256]

/-- Modelled from the spec: the optional nested payload parser reads a
4-byte length; length 0 denotes absence, otherwise that many payload
bytes follow (the repository's generic payload parser is not part of the
provided sources). -/
def payloadFromMarshalUtil (bs : List Nat) (off : Nat) :
    Except ParseErr (Option (List Nat) × Nat) :=
  match readUint32LE bs off with
  | .error e => .error e
  | .ok (n, off1) =>
    if n = 0 then .ok (none, off1)
    else
      match readBytes bs off1 n with
      | .error e => .error e
      | .ok (data, off2) => .ok (some data, off2)

/-- Modelled from the spec: serialization of the optional nested payload;
the source writes a zero uint32 for a nil payload (transaction.go line
295) and the payload's own length-prefixed bytes otherwise. -/
def payloadOptBytes : Option (List Nat) → List Nat
  | none => writeUint32LE 0
  | some data => writeUint32LE data.length ++ data

/-- TransactionEssence.Bytes from the source (transaction.go lines
286-299): version, inputs, outputs, then the optional payload. -/
def transactionEssenceBytes (e : TransactionEssence) : List Nat :=
  transactionEssenceVersionBytes e.version ++ inputsBytes e.inputs ++
    outputsBytes e.outputs ++ payloadOptBytes e.payload

/-- TransactionEssenceFromMarshalUtil from the source (transaction.go
lines 254-274): version, inputs, outputs, payload in order. -/
def transactionEssenceFromMarshalUtil (bs : List Nat) (off : Nat) :
    Except ParseErr (TransactionEssence × Nat) :=
  match transactionEssenceVersionFromMarshalUtil bs off with
  | .error e => .error e
  | .ok (version, off1) =>
    match inputsFromMarshalUtil bs off1 with
    | .error e => .error e
    | .ok (inputs, off2) =>
      match outputsFromMarshalUtil bs off2 with
      | .error e => .error e
      | .ok (outputs, off3) =>
        match payloadFromMarshalUtil bs off3 with
        | .error e => .error e
        | .ok (payload, off4) => .ok (⟨version, inputs, outputs, payload⟩, off4)

/-- Transaction from the source: an essence together with the unlock
blocks. -/
structure Transaction where
  essence : TransactionEssence
  unlockBlocks : List UnlockBlock
deriving DecidableEq, Repr

/-- The registered Transaction payload type from the source: the init
function registers payload.NewType(1, ...), so the discriminator value
is 1. -/
def transactionTypeValue : Nat := 1

/-- payload.TypeFromMarshalUtil: the payload type discriminator is a
uint32 read from the wire (the spec's 4-byte typeTag). -/
def typeFromMarshalUtil (bs : List Nat) (off : Nat) : Except ParseErr (Nat × Nat) :=
  readUint32LE bs off

/-- NewTransaction from the source (transaction.go lines 116-125): the Go
function panics when the unlock-block count differs from the input count
and otherwise returns the assembled Transaction; the panic is modelled as
an arity-mismatch error result, so no Transaction is ever produced on
mismatch. -/
def newTransaction (essence : TransactionEssence) (unlockBlocks : List UnlockBlock) :
    Except ParseErr Transaction :=
  if unlockBlocks.length ≠ essence.inputs.length then .error .arityMismatch
  else .ok ⟨essence, unlockBlocks⟩

/-- TransactionFromMarshalUtil from the source (transaction.go lines
140-180): reads a 4-byte payload size, the 4-byte payload type (which
must equal the registered Transaction type), the essence and the unlock
blocks; then checks that the consumed bytes equal the declared size plus
4 and that the unlock-block count equals the input count. -/
def transactionFromMarshalUtil (bs : List Nat) (off : Nat) :
    Except ParseErr (Transaction × Nat) :=
  match readUint32LE bs off with
  | .error e => .error e
  | .ok (payloadSize, off1) =>
    match typeFromMarshalUtil bs off1 with
    | .error e => .error e
    | .ok (payloadType, off2) =>
      if payloadType ≠ transactionTypeValue then .error .typeMismatch
      else
        match transactionEssenceFromMarshalUtil bs off2 with
        | .error e => .error e
        | .ok (essence, off3) =>
          match unlockBlocksFromMarshalUtil bs off3 with
          | .error e => .error e
          | .ok (unlockBlocks, off4) =>
            if off4 - off ≠ payloadSize + 4 then .error .lengthMismatch
            else if unlockBlocks.length ≠ essence.inputs.length then .error .arityMismatch
            else .ok (⟨essence, unlockBlocks⟩, off4)

/-- TransactionFromBytes from the source: parses from offset 0 and
reports the final read offset as the consumed byte count. -/
def transactionFromBytes (bs : List Nat) : Except ParseErr (Transaction × Nat) :=
  transactionFromMarshalUtil bs 0

/-- Transaction.Bytes from the source (transaction.go lines 196-208), on
a non-nil receiver: the concatenation of the type bytes, the essence
bytes and the unlock-block bytes, prefixed by its length written as a
uint16 (the source's WriteUint16 of the payload length). -/
def transactionBytes (t : Transaction) : List Nat :=
  let payloadBytes := writeUint32LE transactionTypeValue ++
    transactionEssenceBytes t.essence ++ unlockBlocksBytes t.unlockBlocks
  writeUint16LE payloadBytes.length ++ payloadBytes

/-- Transaction.Bytes from the source including the nil receiver case
(transaction.go lines 197-199): a nil Transaction serializes as a zero
uint16. -/
def transactionBytesOpt : Option Transaction → List Nat
  | none => writeUint16LE 0
  | some t => transactionBytes t

/-- TransactionID from the source: a fixed 32-byte identifier. -/
def TransactionID := { l : List Nat // l.length = 32 }

instance : DecidableEq TransactionID :=
  fun a b => decidable_of_iff (a.val = b.val) Subtype.ext_iff.symm

/-- TransactionID.Bytes from the source: the raw 32 bytes. -/
def transactionIDBytes (i : TransactionID) : List Nat :=
  i.val

/-- The Go parse copies the 32 read bytes into a zero-initialized 32-byte
array; padding with zeros and truncating to 32 models that copy exactly. -/
def transactionIDFromChunk (c : List Nat) : TransactionID :=
  ⟨(c ++ List.replicate 32 0).take 32, by
    simp [List.length_take, List.length_append, List.length_replicate]⟩

/-- TransactionIDFromMarshalUtil from the source (transaction.go lines
72-81): reads TransactionIDLength bytes, failing when fewer remain. -/
def transactionIDFromMarshalUtil (bs : List Nat) (off : Nat) :
    Except ParseErr (TransactionID × Nat) :=
  match readBytes bs off TransactionIDLength with
  | .error _ => .error .truncatedInput
  | .ok (c, off1) => .ok (transactionIDFromChunk c, off1)

/-- TransactionIDFromBytes from the source (transaction.go lines 44-53):
parses from offset 0 and reports the final read offset as the consumed
byte count. -/
def transactionIDFromBytes (bs : List Nat) : Except ParseErr (TransactionID × Nat) :=
  transactionIDFromMarshalUtil bs 0

/-- The base-58 alphabet used by the base58 library the source calls
(the Bitcoin alphabet). -/
def base58Alphabet : List Char :=
  "123456789ABCDEFGHJKLMNPQRSTUVWXYZabcdefghijkmnopqrstuvwxyz".toList

/-- One base-58 digit as a character. -/
def base58Char (d : Nat) : Char :=
  base58Alphabet.getD d '1'

/-- Base-58 digit loop with an explicit recursion bound; the value itself
bounds the number of divisions by 58, so the bound never runs out. -/
def base58DigitsAux : Nat → Nat → List Nat
  | 0, _ => []
  | fuel + 1, n => if n = 0 then [] else (n % 58) :: base58DigitsAux fuel (n / 58)

/-- Base-58 digits of a natural number, least significant first
(repeated division by 58 until the value reaches zero). -/
def base58Digits (n : Nat) : List Nat :=
  base58DigitsAux n n

/-- Value of a big-endian byte list. -/
def beUint (l : List Nat) : Nat :=
  l.foldl (fun acc b => acc * 256 + b) 0

/-- Number of leading zero bytes. -/
def countLeadingZeros : List Nat → Nat
  | [] => 0
  | b :: rest => if b = 0 then countLeadingZeros rest + 1 else 0

/-- base58.Encode as called by the source: one alphabet-leading character
per leading zero byte, then the base-58 digits of the big-endian value,
most significant first. -/
def base58Encode (bs : List Nat) : String :=
  String.mk (List.replicate (countLeadingZeros bs) '1' ++
    ((base58Digits (beUint bs)).reverse.map base58Char))

/-- TransactionID.Base58 from the source: base-58 of the raw bytes. -/
def transactionIDBase58 (i : TransactionID) : String :=
  base58Encode i.val

/-- TransactionID.String from the source (transaction.go lines 100-103). -/
def transactionIDString (i : TransactionID) : String :=
  "TransactionID(" ++ transactionIDBase58 i ++ ")"

/-- The all-zero genesis TransactionID from the source. -/
def genesisTransactionID : TransactionID :=
  ⟨List.replicate 32 0, by simp⟩

/-- An object-storage option of the marker engine; the source fragment
only uses the cache-time option, whose duration is modelled in seconds. -/
inductive ObjectStorageOption where
  | cacheTime (seconds : Nat)
deriving DecidableEq, Repr

/-- time.Second modelled with the second as the unit of time. -/
def timeSecond : Nat := 1

/-- objectStorageOptions from the marker engine source (src/unnamed/
part_001 lines 17-20): the default options used for the cached Sequence
and SequenceAliasMapping stores set a cache time of 60 seconds. -/
def objectStorageOptions : List ObjectStorageOption :=
  [.cacheTime (60 * timeSecond)]

/-- PrefixSequence from the marker engine source. -/
def PrefixSequence : Nat := 0

/-- PrefixSequenceAliasMapping from the marker engine source. -/
def PrefixSequenceAliasMapping : Nat := 1

/-! ### Helper lemmas about the byte-level readers -/

theorem readBytes_eq_ok {bs : List Nat} {off n : Nat} {c : List Nat} {off' : Nat}
    (h : readBytes bs off n = .ok (c, off')) :
    off' = off + n ∧ off + n ≤ bs.length ∧ c = (bs.drop off).take n := by
  unfold readBytes at h
  split at h
  · simp only [Except.ok.injEq, Prod.mk.injEq] at h
    exact ⟨h.2.symm, by assumption, h.1.symm⟩
  · simp at h

theorem readByte_eq_ok {bs : List Nat} {off : Nat} {b off' : Nat}
    (h : readByte bs off = .ok (b, off')) :
    off' = off + 1 ∧ off < bs.length ∧ b = bs.getD off 0 := by
  unfold readByte at h
  split at h
  · simp only [Except.ok.injEq, Prod.mk.injEq] at h
    exact ⟨h.2.symm, by assumption, h.1.symm⟩
  · simp at h

theorem readUint32LE_eq_ok {bs : List Nat} {off : Nat} {v off' : Nat}
    (h : readUint32LE bs off = .ok (v, off')) :
    off' = off + 4 ∧ off + 4 ≤ bs.length ∧ v = leUint ((bs.drop off).take 4) := by
  unfold readUint32LE at h
  split at h
  · simp at h
  next c off1 heq =>
    obtain ⟨h1, h2, h3⟩ := readBytes_eq_ok heq
    simp only [Except.ok.injEq, Prod.mk.injEq] at h
    exact ⟨h.2.symm.trans h1, h2, by rw [← h.1, h3]⟩

/-- Every parser that can only move the read offset forward. -/
def StepMono {α : Type} (p : List Nat → Nat → Except ParseErr (α × Nat)) : Prop :=
  ∀ bs off a off', p bs off = .ok (a, off') → off ≤ off'

theorem stepMono_readVarint : StepMono readVarint := by
  intro bs off a off' h
  unfold readVarint at h
  split at h
  · simp at h
  · simp only [Except.ok.injEq, Prod.mk.injEq] at h
    omega

theorem parseCount_mono {α : Type} {p : List Nat → Nat → Except ParseErr (α × Nat)}
    (hp : StepMono p) :
    ∀ n bs off as off', parseCount p n bs off = .ok (as, off') → off ≤ off' := by
  intro n
  induction n with
  | zero =>
    intro bs off as off' h
    simp only [parseCount, Except.ok.injEq, Prod.mk.injEq] at h
    omega
  | succ k ih =>
    intro bs off as off' h
    unfold parseCount at h
    split at h
    · simp at h
    next a1 off1 heq1 =>
      split at h
      · simp at h
      next as2 off2 heq2 =>
        simp only [Except.ok.injEq, Prod.mk.injEq] at h
        have := hp bs off a1 off1 heq1
        have := ih bs off1 as2 off2 heq2
        omega

theorem stepMono_input : StepMono inputFromMarshalUtil := by
  intro bs off a off' h
  unfold inputFromMarshalUtil at h
  split at h
  · simp at h
  next addr off1 heq1 =>
    split at h
    · simp at h
    next tid off2 heq2 =>
      simp only [Except.ok.injEq, Prod.mk.injEq] at h
      obtain ⟨e1, _, _⟩ := readBytes_eq_ok heq1
      obtain ⟨e2, _, _⟩ := readBytes_eq_ok heq2
      omega

theorem stepMono_inputs : StepMono inputsFromMarshalUtil := by
  intro bs off a off' h
  unfold inputsFromMarshalUtil at h
  split at h
  · simp at h
  next n off1 heq =>
    have h1 := stepMono_readVarint bs off n off1 heq
    have h2 := parseCount_mono stepMono_input n bs off1 a off' h
    omega

theorem stepMono_coloredBalance : StepMono coloredBalanceFromMarshalUtil := by
  intro bs off a off' h
  unfold coloredBalanceFromMarshalUtil at h
  split at h
  · simp at h
  next color off1 heq1 =>
    split at h
    · simp at h
    next amount off2 heq2 =>
      simp only [Except.ok.injEq, Prod.mk.injEq] at h
      obtain ⟨e1, _, _⟩ := readBytes_eq_ok heq1
      unfold readUint64LE at heq2
      split at heq2
      · simp at heq2
      next c off3 heq3 =>
        obtain ⟨e2, _, _⟩ := readBytes_eq_ok heq3
        simp only [Except.ok.injEq, Prod.mk.injEq] at heq2
        omega

theorem stepMono_output : StepMono outputFromMarshalUtil := by
  intro bs off a off' h
  unfold outputFromMarshalUtil at h
  split at h
  · simp at h
  next addr off1 heq1 =>
    split at h
    · simp at h
    next n off2 heq2 =>
      split at h
      · simp at h
      next balances off3 heq3 =>
        simp only [Except.ok.injEq, Prod.mk.injEq] at h
        obtain ⟨e1, _, _⟩ := readBytes_eq_ok heq1
        have e2 := stepMono_readVarint bs off1 n off2 heq2
        have e3 := parseCount_mono stepMono_coloredBalance n bs off2 balances off3 heq3
        omega

theorem stepMono_outputs : StepMono outputsFromMarshalUtil := by
  intro bs off a off' h
  unfold outputsFromMarshalUtil at h
  split at h
  · simp at h
  next n off1 heq =>
    have h1 := stepMono_readVarint bs off n off1 heq
    have h2 := parseCount_mono stepMono_output n bs off1 a off' h
    omega

theorem stepMono_version : StepMono transactionEssenceVersionFromMarshalUtil := by
  intro bs off a off' h
  unfold transactionEssenceVersionFromMarshalUtil at h
  split at h
  · simp at h
  next b off1 heq =>
    obtain ⟨e1, _, _⟩ := readByte_eq_ok heq
    split at h
    · simp at h
    · simp only [Except.ok.injEq, Prod.mk.injEq] at h
      omega

theorem stepMono_payload : StepMono payloadFromMarshalUtil := by
  intro bs off a off' h
  unfold payloadFromMarshalUtil at h
  split at h
  · simp at h
  next n off1 heq =>
    obtain ⟨e1, _, _⟩ := readUint32LE_eq_ok heq
    split at h
    · simp only [Except.ok.injEq, Prod.mk.injEq] at h
      omega
    · split at h
      · simp at h
      next data off2 heq2 =>
        obtain ⟨e2, _, _⟩ := readBytes_eq_ok heq2
        simp only [Except.ok.injEq, Prod.mk.injEq] at h
        omega

theorem stepMono_unlockBlock : StepMono unlockBlockFromMarshalUtil := by
  intro bs off a off' h
  unfold unlockBlockFromMarshalUtil at h
  split at h
  · simp at h
  next b off1 heq =>
    obtain ⟨e1, _, _⟩ := readByte_eq_ok heq
    split at h
    · split at h
      · simp at h
      next sig off2 heq2 =>
        obtain ⟨e2, _, _⟩ := readBytes_eq_ok heq2
        simp only [Except.ok.injEq, Prod.mk.injEq] at h
        omega
    · split at h
      · split at h
        · simp at h
        next index off2 heq2 =>
          unfold readUint16LE at heq2
          split at heq2
          · simp at heq2
          next c off3 heq3 =>
            obtain ⟨e2, _, _⟩ := readBytes_eq_ok heq3
            simp only [Except.ok.injEq, Prod.mk.injEq] at heq2
            simp only [Except.ok.injEq, Prod.mk.injEq] at h
            omega
      · simp at h

theorem stepMono_unlockBlocks : StepMono unlockBlocksFromMarshalUtil := by
  intro bs off a off' h
  unfold unlockBlocksFromMarshalUtil at h
  split at h
  · simp at h
  next n off1 heq =>
    have h1 := stepMono_readVarint bs off n off1 heq
    have h2 := parseCount_mono stepMono_unlockBlock n bs off1 a off' h
    omega

theorem stepMono_essence : StepMono transactionEssenceFromMarshalUtil := by
  intro bs off a off' h
  unfold transactionEssenceFromMarshalUtil at h
  split at h
  · simp at h
  next version off1 heq1 =>
    split at h
    · simp at h
    next inputs off2 heq2 =>
      split at h
      · simp at h
      next outputs off3 heq3 =>
        split at h
        · simp at h
        next payload off4 heq4 =>
          simp only [Except.ok.injEq, Prod.mk.injEq] at h
          have e1 := stepMono_version bs off version off1 heq1
          have e2 := stepMono_inputs bs off1 inputs off2 heq2
          have e3 := stepMono_outputs bs off2 outputs off3 heq3
          have e4 := stepMono_payload bs off3 payload off4 heq4
          omega

/-- Bytes read from a position wholly inside the first m bytes of the
input do not depend on anything past those m bytes. -/
theorem readBytes_take_append (bs rest : List Nat) (m off n : Nat)
    (hmn : off + n ≤ m) (hm : m ≤ bs.length) :
    readBytes (bs.take m ++ rest) off n = readBytes bs off n := by
  have htl : (bs.take m).length = m := by
    simp only [List.length_take]
    omega
  have hslice : ((bs.take m ++ rest).drop off).take n = (bs.drop off).take n := by
    rw [List.drop_append_of_le_length (by omega)]
    rw [List.take_append_of_le_length (by rw [List.length_drop, htl]; omega)]
    rw [List.drop_take, List.take_take, Nat.min_eq_left (by omega)]
  have c1 : off + n ≤ (bs.take m ++ rest).length := by
    simp only [List.length_append, htl]
    omega
  have c2 : off + n ≤ bs.length := by omega
  unfold readBytes
  rw [if_pos c1, if_pos c2, hslice]

/-! ### Claim theorems -/

/-- Claim C4, counterexample: constructing a TransactionEssence with
version 1 does not fail; NewTransactionEssence returns a fully formed
essence that stores version 1, so the claimed InvalidVersion failure at
construction never happens. -/
theorem newTransactionEssence_version_one_succeeds :
    newTransactionEssence 1 [] [] =
      { version := 1, inputs := [], outputs := [], payload := none } :=
  rfl

/-- Claim C4, amended: NewTransactionEssence performs no version
validation at all; for every version (zero or not) it succeeds and
returns the essence with exactly the given fields and a nil payload, and
the version is checked only by the parser. -/
theorem newTransactionEssence_no_version_check :
    ∀ (v : Nat) (ins : List OutputReference) (outs : List Output),
      newTransactionEssence v ins outs =
        { version := v, inputs := ins, outputs := outs, payload := none } :=
  fun _ _ _ => rfl

/-- Claim C9: the marker engine's default object-storage options set the
cache time for the Sequence and SequenceAliasMapping stores to exactly
60 seconds (60 time-units). -/
theorem marker_cache_time_sixty :
    objectStorageOptions = [ObjectStorageOption.cacheTime (60 * timeSecond)] ∧
      60 * timeSecond = 60 :=
  ⟨rfl, rfl⟩

/-- Claim C5: parsing a TransactionEssenceVersion succeeds exactly when
the byte at the read offset is 0 (returning version 0 and advancing one
byte), and fails with an invalid-version error on every other byte
value. -/
theorem essence_version_parse_iff_zero (bs : List Nat) (off : Nat)
    (h : off < bs.length) :
    (bs.getD off 0 = 0 →
      transactionEssenceVersionFromMarshalUtil bs off = .ok (0, off + 1)) ∧
    (bs.getD off 0 ≠ 0 →
      transactionEssenceVersionFromMarshalUtil bs off = .error .invalidVersion) := by
  constructor <;> intro hb <;> rw [List.getD_eq_getElem bs 0 h] at hb <;>
    simp [transactionEssenceVersionFromMarshalUtil, readByte, h, hb]

/-- Witness for claim C5: the version byte 0 parses, the version byte 7
is rejected. -/
theorem essence_version_parse_iff_zero_witness :
    transactionEssenceVersionFromMarshalUtil [0] 0 = .ok (0, 1) ∧
      transactionEssenceVersionFromMarshalUtil [7] 0 = .error .invalidVersion :=
  ⟨(essence_version_parse_iff_zero [0] 0 (by decide)).1 (by decide),
   (essence_version_parse_iff_zero [7] 0 (by decide)).2 (by decide)⟩

/-- Claim C3, counterexample: the 2-byte zero sentinel produced for a nil
Transaction does not parse back as an absence marker; the parser starts
with a 4-byte length read, so on the 2-byte sentinel it fails with a
truncated-input error. -/
theorem nil_sentinel_parse_errors :
    transactionFromMarshalUtil (transactionBytesOpt none) 0 =
      .error .truncatedInput :=
  rfl

/-- Claim C3, amended: serializing a nil Transaction produces exactly the
2-byte zero uint16 sentinel, and parsing those 2 bytes with
TransactionFromMarshalUtil fails with a truncated-input error (the
4-byte payload-length read runs out of input) rather than yielding an
absence marker. -/
theorem nil_sentinel_bytes :
    transactionBytesOpt none = [0, 0] ∧
      transactionFromMarshalUtil [0, 0] 0 = .error .truncatedInput :=
  ⟨rfl, rfl⟩

/-- Claim C8: the display form of every TransactionID is the literal text
TransactionID( followed by the base-58 encoding of its raw 32 bytes and
a closing parenthesis; concretely, the all-zero identifier displays as
TransactionID( followed by 32 ones and a parenthesis, the base-58 form
of 32 zero bytes. -/
theorem transactionID_string_form :
    (∀ i : TransactionID,
      transactionIDString i = "TransactionID(" ++ base58Encode (transactionIDBytes i) ++ ")") ∧
    transactionIDString genesisTransactionID =
      "TransactionID(11111111111111111111111111111111)" :=
  ⟨fun _ => rfl, rfl⟩

/-- Claim C10: round-tripping an identifier through its byte form
succeeds, returns the identical identifier and reports exactly 32
consumed bytes, while every input shorter than 32 bytes is rejected with
a truncated-input error. -/
theorem transactionID_bytes_roundtrip :
    (∀ i : TransactionID,
      transactionIDFromBytes (transactionIDBytes i) = .ok (i, 32)) ∧
    (∀ bs : List Nat, bs.length < 32 →
      transactionIDFromBytes bs = .error .truncatedInput) := by
  constructor
  · intro i
    obtain ⟨l, hl⟩ := i
    have hread : readBytes l 0 TransactionIDLength = .ok (l, 32) := by
      unfold readBytes TransactionIDLength
      rw [if_pos (by omega)]
      simp [List.take_of_length_le (by omega : l.length ≤ 32)]
    have hchunk : transactionIDFromChunk l = ⟨l, hl⟩ := by
      apply Subtype.ext
      show (l ++ List.replicate 32 0).take 32 = l
      rw [← hl]
      exact List.take_left l _
    simp [transactionIDFromBytes, transactionIDFromMarshalUtil,
      transactionIDBytes, hread, hchunk]
  · intro bs h
    have hread : readBytes bs 0 TransactionIDLength = .error .truncatedInput := by
      unfold readBytes TransactionIDLength
      rw [if_neg (by omega)]
    simp [transactionIDFromBytes, transactionIDFromMarshalUtil, hread]

/-- Witness for claim C10: the all-zero identifier round-trips, and the
empty byte input is rejected. -/
theorem transactionID_bytes_roundtrip_witness :
    transactionIDFromBytes (transactionIDBytes genesisTransactionID) =
      .ok (genesisTransactionID, 32) ∧
    transactionIDFromBytes [] = .error .truncatedInput :=
  ⟨transactionID_bytes_roundtrip.1 genesisTransactionID,
   transactionID_bytes_roundtrip.2 [] (by decide)⟩

/-- Claim C2: when the unlock-block count differs from the input count,
construction fails with an arity-mismatch failure (the Go constructor
panics, so no Transaction value is produced); the parser can only return
a Transaction whose unlock-block count equals its input count, so a
mismatched parse never yields a Transaction; and a parse that reads a
well-framed transaction whose unlock-block count differs from its input
count fails with the arity-mismatch error. -/
theorem transaction_arity_invariant :
    (∀ (e : TransactionEssence) (ub : List UnlockBlock),
      ub.length ≠ e.inputs.length → newTransaction e ub = .error .arityMismatch) ∧
    (∀ (bs : List Nat) (off : Nat) (t : Transaction) (off' : Nat),
      transactionFromMarshalUtil bs off = .ok (t, off') →
      t.unlockBlocks.length = t.essence.inputs.length) ∧
    (∀ (bs : List Nat) (off size off1 ty off2 : Nat) (e : TransactionEssence)
      (off3 : Nat) (ub : List UnlockBlock) (off4 : Nat),
      readUint32LE bs off = .ok (size, off1) →
      typeFromMarshalUtil bs off1 = .ok (ty, off2) →
      ty = transactionTypeValue →
      transactionEssenceFromMarshalUtil bs off2 = .ok (e, off3) →
      unlockBlocksFromMarshalUtil bs off3 = .ok (ub, off4) →
      off4 - off = size + 4 →
      ub.length ≠ e.inputs.length →
      transactionFromMarshalUtil bs off = .error .arityMismatch) := by
  refine ⟨?_, ?_, ?_⟩
  · intro e ub h
    unfold newTransaction
    rw [if_pos h]
  · intro bs off t off' h
    unfold transactionFromMarshalUtil at h
    split at h
    · simp at h
    next size off1 h1 =>
      split at h
      · simp at h
      next ty off2 h2 =>
        split at h
        · simp at h
        · split at h
          · simp at h
          next e off3 h3 =>
            split at h
            · simp at h
            next ub off4 h4 =>
              split at h
              · simp at h
              · split at h
                · simp at h
                next harity =>
                  simp only [Except.ok.injEq, Prod.mk.injEq] at h
                  rw [← h.1]
                  simpa using harity
  · intro bs off size off1 ty off2 e off3 ub off4 h1 h2 h3 h4 h5 h6 h7
    unfold transactionFromMarshalUtil
    rw [h1]
    simp only [h2, h3, transactionTypeValue, ne_eq, not_true_eq_false, if_false,
      ite_false, h4, h5, h6]
    rw [if_pos h7]

/-- Witness for claim C2: an essence with one input rejects an empty
unlock-block list; a successfully parsed concrete transaction has equal
unlock-block and input counts; and a well-framed input declaring one
input but zero unlock blocks is rejected with an arity mismatch. -/
theorem transaction_arity_invariant_witness :
    newTransaction ⟨0, [⟨List.replicate 32 0, List.replicate 32 0⟩], [], none⟩ [] =
      .error .arityMismatch ∧
    (⟨⟨0, [], [], none⟩, []⟩ : Transaction).unlockBlocks.length =
      (⟨⟨0, [], [], none⟩, []⟩ : Transaction).essence.inputs.length ∧
    transactionFromMarshalUtil
      ([76, 0, 0, 0, 1, 0, 0, 0, 0, 1] ++ List.replicate 64 0 ++ [0, 0, 0, 0, 0, 0]) 0 =
      .error .arityMismatch :=
  ⟨transaction_arity_invariant.1 _ [] (by decide),
   transaction_arity_invariant.2.1 [12, 0, 0, 0, 1, 0, 0, 0, 0, 0, 0, 0, 0, 0, 0, 0] 0
     ⟨⟨0, [], [], none⟩, []⟩ 16 (by rfl),
   transaction_arity_invariant.2.2
     ([76, 0, 0, 0, 1, 0, 0, 0, 0, 1] ++ List.replicate 64 0 ++ [0, 0, 0, 0, 0, 0]) 0
     76 4 1 8 ⟨0, [⟨List.replicate 32 0, List.replicate 32 0⟩], [], none⟩ 79 [] 80
     (by rfl) (by rfl) (by rfl) (by rfl) (by rfl) (by rfl) (by decide)⟩

/-- Claim C6: when the header, type tag, essence and unlock blocks all
read successfully but the bytes consumed after the 4-byte declared
payload length field differ from the declared payload length, the parse
fails with a length-mismatch error. -/
theorem transaction_parse_length_mismatch (bs : List Nat)
    (off size off1 ty off2 : Nat) (e : TransactionEssence) (off3 : Nat)
    (ub : List UnlockBlock) (off4 : Nat)
    (h1 : readUint32LE bs off = .ok (size, off1))
    (h2 : typeFromMarshalUtil bs off1 = .ok (ty, off2))
    (h3 : ty = transactionTypeValue)
    (h4 : transactionEssenceFromMarshalUtil bs off2 = .ok (e, off3))
    (h5 : unlockBlocksFromMarshalUtil bs off3 = .ok (ub, off4))
    (h6 : off4 - (off + 4) ≠ size) :
    transactionFromMarshalUtil bs off = .error .lengthMismatch := by
  have h2' : readUint32LE bs off1 = .ok (ty, off2) := h2
  obtain ⟨e1, _, _⟩ := readUint32LE_eq_ok h1
  obtain ⟨e2, _, _⟩ := readUint32LE_eq_ok h2'
  have e3 := stepMono_essence bs off2 e off3 h4
  have e4 := stepMono_unlockBlocks bs off3 ub off4 h5
  have hlen : off4 - off ≠ size + 4 := by omega
  unfold transactionFromMarshalUtil
  rw [h1]
  simp only [h2, h3, transactionTypeValue, ne_eq, not_true_eq_false, if_false,
    ite_false, h4, h5]
  rw [if_pos hlen]

/-- Witness for claim C6: a concrete input whose body parses but whose
declared payload length is 13 while only 12 body bytes were consumed is
rejected with a length mismatch. -/
theorem transaction_parse_length_mismatch_witness :
    transactionFromMarshalUtil
      [13, 0, 0, 0, 1, 0, 0, 0, 0, 0, 0, 0, 0, 0, 0, 0] 0 =
      .error .lengthMismatch :=
  transaction_parse_length_mismatch
    [13, 0, 0, 0, 1, 0, 0, 0, 0, 0, 0, 0, 0, 0, 0, 0] 0 13 4 1 8
    ⟨0, [], [], none⟩ 15 [] 16 (by rfl) (by rfl) (by rfl) (by rfl) (by rfl)
    (by decide)

/-- A uint32 read from a position wholly inside the first m bytes does
not depend on anything past those m bytes. -/
theorem readUint32LE_take_append (bs rest : List Nat) (m off : Nat)
    (hmn : off + 4 ≤ m) (hm : m ≤ bs.length) :
    readUint32LE (bs.take m ++ rest) off = readUint32LE bs off := by
  unfold readUint32LE
  rw [readBytes_take_append bs rest m off 4 hmn hm]

/-- Claim C7: when the typed-payload discriminator read after the 4-byte
length differs from the registered Transaction type, the parse fails
with a type-mismatch error, and it does so before consuming any essence
or unlock-block bytes: the same type-mismatch error results no matter
what bytes follow the 8 header bytes. -/
theorem transaction_parse_type_mismatch_early (bs : List Nat)
    (off size off1 ty off2 : Nat)
    (h1 : readUint32LE bs off = .ok (size, off1))
    (h2 : typeFromMarshalUtil bs off1 = .ok (ty, off2))
    (h3 : ty ≠ transactionTypeValue) :
    transactionFromMarshalUtil bs off = .error .typeMismatch ∧
    ∀ rest : List Nat,
      transactionFromMarshalUtil (bs.take off2 ++ rest) off = .error .typeMismatch := by
  have h2' : readUint32LE bs off1 = .ok (ty, off2) := h2
  obtain ⟨e1, hb1, _⟩ := readUint32LE_eq_ok h1
  obtain ⟨e2, hb2, _⟩ := readUint32LE_eq_ok h2'
  constructor
  · unfold transactionFromMarshalUtil
    rw [h1]
    simp only [h2]
    rw [if_pos h3]
  · intro rest
    have r1 : readUint32LE (bs.take off2 ++ rest) off = .ok (size, off1) := by
      rw [readUint32LE_take_append bs rest off2 off (by omega) (by omega)]
      exact h1
    have r2 : typeFromMarshalUtil (bs.take off2 ++ rest) off1 = .ok (ty, off2) := by
      show readUint32LE (bs.take off2 ++ rest) off1 = .ok (ty, off2)
      rw [readUint32LE_take_append bs rest off2 off1 (by omega) (by omega)]
      exact h2'
    unfold transactionFromMarshalUtil
    rw [r1]
    simp only [r2]
    rw [if_pos h3]

/-- Witness for claim C7: an 8-byte header declaring payload type 2 is
rejected with a type mismatch, and stays rejected with the same error
whatever bytes follow the header. -/
theorem transaction_parse_type_mismatch_early_witness :
    transactionFromMarshalUtil [12, 0, 0, 0, 2, 0, 0, 0] 0 = .error .typeMismatch ∧
    transactionFromMarshalUtil
      (([12, 0, 0, 0, 2, 0, 0, 0] : List Nat).take 8 ++ [9, 9, 9]) 0 =
      .error .typeMismatch :=
  have h := transaction_parse_type_mismatch_early [12, 0, 0, 0, 2, 0, 0, 0] 0
    12 4 2 8 (by rfl) (by rfl) (by decide)
  ⟨h.1, h.2 [9, 9, 9]⟩

theorem writeVarint_ne_nil (n : Nat) : writeVarint n ≠ [] := by
  unfold writeVarint
  split <;> simp

/-- The essence serialization always starts with the version byte
followed by the first byte of the input-count varint. -/
theorem essenceBytes_shape (e : TransactionEssence) :
    ∃ b tail, transactionEssenceBytes e = (e.version % 256) :: b :: tail := by
  obtain ⟨b, cs, hv⟩ := List.exists_cons_of_ne_nil (writeVarint_ne_nil e.inputs.length)
  refine ⟨b, cs ++ (e.inputs.map inputBytes).flatten ++ outputsBytes e.outputs ++
    payloadOptBytes e.payload, ?_⟩
  unfold transactionEssenceBytes transactionEssenceVersionBytes inputsBytes
  rw [hv]
  simp [List.append_assoc]

theorem readUint32LE_cons (a b c d : Nat) (R : List Nat) :
    readUint32LE (a :: b :: c :: d :: R) 0 = .ok (leUint [a, b, c, d], 4) := by
  have h : readBytes (a :: b :: c :: d :: R) 0 4 = .ok ([a, b, c, d], 4) := by
    unfold readBytes
    rw [if_pos (by simp)]
    rfl
  simp only [readUint32LE, h]

theorem readUint32LE_cons8 (a0 a1 a2 a3 b0 b1 b2 b3 : Nat) (R : List Nat) :
    readUint32LE (a0 :: a1 :: a2 :: a3 :: b0 :: b1 :: b2 :: b3 :: R) 4 =
      .ok (leUint [b0, b1, b2, b3], 8) := by
  have h : readBytes (a0 :: a1 :: a2 :: a3 :: b0 :: b1 :: b2 :: b3 :: R) 4 4 =
      .ok ([b0, b1, b2, b3], 8) := by
    unfold readBytes
    rw [if_pos (by simp)]
    rfl
  simp only [readUint32LE, h]

/-- Any input whose third through sixth bytes are 1, 0, 0, 0 makes the
parser read a payload type whose two low bytes are zero, which can never
equal the registered type 1; this is exactly the misalignment produced
by the 2-byte length prefix the serializer writes. -/
theorem parse_mid_zero (x y c d : Nat) (R : List Nat) :
    transactionFromMarshalUtil (x :: y :: 1 :: 0 :: 0 :: 0 :: c :: d :: R) 0 =
      .error .typeMismatch := by
  have h1 := readUint32LE_cons x y 1 0 (0 :: 0 :: c :: d :: R)
  have h2 := readUint32LE_cons8 x y 1 0 0 0 c d R
  simp only [transactionFromMarshalUtil, typeFromMarshalUtil, h1, h2]
  rw [if_pos (by simp [leUint, transactionTypeValue])]

/-- The misalignment is independent of the value of the 2-byte length
prefix. -/
theorem parse_after_uint16_prefix (n c d : Nat) (R : List Nat) :
    transactionFromMarshalUtil
      (writeUint16LE n ++ 1 :: 0 :: 0 :: 0 :: c :: d :: R) 0 =
      .error .typeMismatch := by
  unfold writeUint16LE
  simp only [List.cons_append, List.nil_append]
  exact parse_mid_zero (n % 256) (n / 256 % 256) c d R

/-- Claim C1 fails on the code: Transaction.Bytes writes a 2-byte uint16
length prefix while TransactionFromMarshalUtil reads a 4-byte uint32
length, so parsing the serialization of ANY transaction misreads the
stream and fails with a type mismatch; no valid transaction round-trips. -/
theorem transaction_parse_of_bytes_fails (t : Transaction) :
    transactionFromMarshalUtil (transactionBytes t) 0 = .error .typeMismatch := by
  obtain ⟨b, tail, hshape⟩ := essenceBytes_shape t.essence
  have hw32 : writeUint32LE transactionTypeValue = [1, 0, 0, 0] := by decide
  have hbs : transactionBytes t =
      writeUint16LE (([1, 0, 0, 0] ++ ((t.essence.version % 256) :: b :: tail) ++
          unlockBlocksBytes t.unlockBlocks).length) ++
        (1 :: 0 :: 0 :: 0 :: (t.essence.version % 256) :: b ::
          (tail ++ unlockBlocksBytes t.unlockBlocks)) := by
    unfold transactionBytes
    rw [hw32, hshape]
    simp [List.cons_append, List.nil_append, List.append_assoc]
  rw [hbs]
  exact parse_after_uint16_prefix _ _ _ _
